import Mathlib

/-!
Shallow embedding of the lerna-fork `BootstrapCommand`
(`src/commands/BootstrapCommand.js`, together with the checked-in compiled
variant of the same class).  Pure JS functions become Lean functions; the
callback pipeline becomes explicit `Except` threading of a filesystem state;
external collaborators (the `semver` library, `glob`, the npm installer and
the package filter) are parameters collected in an `Env` record.
-/

set_option autoImplicit false

namespace Bootstrap

/-- A parsed `package.json` manifest as the linker consumes it via
`require(srcPackageJsonLocation)`: `pkg.version`, `pkg.main` and
`pkg.lerna && pkg.lerna.files`. -/
structure Manifest where
  version : String
  main : String
  lernaFiles : Option (List String)
  deriving Repr, DecidableEq

/-- A workspace package descriptor as supplied to the command
(`this.packages` entries): `name`, `version`, `location`,
`nodeModulesLocation` and `allDependencies` (an insertion-ordered map from
dependency name to declared range, embedded as an association list). -/
structure Package where
  name : String
  version : String
  location : String
  nodeModulesLocation : String
  allDependencies : List (String × String)
  deriving Repr, DecidableEq

/-- `pkg.allDependencies[name]`: first binding of `name`, if any. -/
def lookupDep (deps : List (String × String)) (name : String) : Option String :=
  (deps.find? (fun kv => kv.1 = name)).map (fun kv => kv.2)

/-- `path.join a b` for an absolute `a` and an already-normalized relative
`b`, which is the only shape the command produces. -/
def pathJoin (a b : String) : String := a ++ "/" ++ b

/-- Characters of the basename: everything after the last `/`. -/
def afterLastSlash (cs : List Char) : List Char :=
  cs.foldl (fun acc c => if c = '/' then [] else acc ++ [c]) []

/-- Extension of a basename: from its last `.`, unless that dot is the
leading character or absent (Node's `path.extname` on the basename). -/
def extFromBase (bs : List Char) : List Char :=
  let p := bs.reverse.span (fun c => c ≠ '.')
  match p.2 with
  | [] => []
  | _ :: restRev => if restRev.isEmpty then [] else '.' :: p.1.reverse

/-- Node's `path.extname`. -/
def extname (s : String) : String := String.mk (extFromBase (afterLastSlash s.data))

/-- Characters of `path.dirname`: everything before the last `/`, or `.`
when there is no `/`. -/
def dirnameChars (cs : List Char) : List Char :=
  if cs.contains '/' then (cs.reverse.dropWhile (fun c => c ≠ '/')).drop 1 |>.reverse
  else ['.']

/-- Node's `path.dirname` (for the non-degenerate paths the command builds). -/
def dirname (s : String) : String := String.mk (dirnameChars s.data)

/-- One hexadecimal digit, lower case. -/
def hexDigit (n : Nat) : Char :=
  if n < 10 then Char.ofNat (48 + n) else Char.ofNat (87 + n)

/-- Four-digit hexadecimal rendering used by `JSON.stringify` for `\uXXXX`. -/
def hex4 (n : Nat) : List Char :=
  [hexDigit (n / 4096 % 16), hexDigit (n / 256 % 16), hexDigit (n / 16 % 16), hexDigit (n % 16)]

/-- Escaping of one character inside a `JSON.stringify`d string literal. -/
def jsonEscapeChar (c : Char) : List Char :=
  if c = '"' then ['\\', '"']
  else if c = '\\' then ['\\', '\\']
  else if c = '\n' then ['\\', 'n']
  else if c = '\t' then ['\\', 't']
  else if c = '\r' then ['\\', 'r']
  else if c = '\x08' then ['\\', 'b']
  else if c = '\x0c' then ['\\', 'f']
  else if c.toNat < 32 then '\\' :: 'u' :: hex4 c.toNat
  else [c]

/-- `JSON.stringify` of a string value. -/
def jsonStringifyString (s : String) : String :=
  String.mk ('"' :: (s.data.map jsonEscapeChar).flatten ++ ['"'])

/-- One `"key": "value"` member line with the two-space indent that
`JSON.stringify(obj, null, "  ")` produces. -/
def jsonMember (kv : String × String) : String :=
  "\n  " ++ jsonStringifyString kv.1 ++ ": " ++ jsonStringifyString kv.2

/-- `JSON.stringify(obj, null, "  ")` for an object whose values are all
strings, given as an ordered field list. -/
def jsonStringifyObj (fields : List (String × String)) : String :=
  match fields with
  | [] => "\x7b\x7d"
  | f :: rest =>
    "\x7b" ++ jsonMember f ++ String.join (rest.map (fun kv => "," ++ jsonMember kv)) ++ "\n\x7d"

/-- A filesystem entry: a directory, a regular file with its contents, or a
symbolic link recording its target. -/
inductive Entry where
  | dir : Entry
  | file : String → Entry
  | symlinkEntry : String → Entry
  deriving Repr, DecidableEq

/-- Filesystem state.  `entries` maps paths to entries; `manifests` is the
`require(path)` oracle, recording which `package.json` paths are readable
and what they parse to (absent or malformed ones are `none`); `badPaths`
models paths on which primitive filesystem operations fail with an I/O
error (permissions and the like), injected by the environment. -/
structure FS where
  entries : List (String × Entry)
  manifests : List (String × Manifest)
  badPaths : List String
  deriving Repr, DecidableEq

/-- Errors surfaced through the callback chain. -/
inductive FsError where
  | eexist : String → FsError
  | ioErr : String → FsError
  | requireFailed : String → FsError
  | installerFailed : String → FsError
  deriving Repr, DecidableEq

def FS.isBad (fs : FS) (p : String) : Bool := fs.badPaths.contains p

def FS.lookup (fs : FS) (p : String) : Option Entry :=
  (fs.entries.find? (fun q => q.1 = p)).map (fun q => q.2)

def FS.setEntry (fs : FS) (p : String) (e : Entry) : FS :=
  { fs with entries := (p, e) :: fs.entries.filter (fun q => q.1 ≠ p) }

/-- `require(p)` for a `package.json`: `some` manifest when readable and
well-formed, `none` when the read or the parse would throw. -/
def FS.readManifest (fs : FS) (p : String) : Option Manifest :=
  (fs.manifests.find? (fun q => q.1 = p)).map (fun q => q.2)

/-- `FileSystemUtilities.rimraf`: recursively remove the entry at `p` (and
everything below it). -/
def FS.rimraf (fs : FS) (p : String) : Except FsError FS :=
  if fs.isBad p then .error (.ioErr p)
  else .ok { fs with
    entries := fs.entries.filter
      (fun q => ¬(q.1 = p ∨ String.isPrefixOf (p ++ "/") q.1)),
    manifests := fs.manifests.filter
      (fun q => ¬(q.1 = p ∨ String.isPrefixOf (p ++ "/") q.1)) }

/-- `FileSystemUtilities.mkdirp`: create the directory (and parents),
succeeding when it already exists, failing on a non-directory entry. -/
def FS.mkdirp (fs : FS) (p : String) : Except FsError FS :=
  if fs.isBad p then .error (.ioErr p)
  else match fs.lookup p with
    | some .dir => .ok fs
    | some _ => .error (.ioErr p)
    | none => .ok (fs.setEntry p .dir)

/-- `FileSystemUtilities.writeFile`. -/
def FS.writeFile (fs : FS) (p : String) (content : String) : Except FsError FS :=
  if fs.isBad p then .error (.ioErr p)
  else .ok (fs.setEntry p (.file content))

/-- `fs-symlink`: create a symbolic link at `dest` pointing at `src`;
rejects with an `EEXIST` error when `dest` already exists. -/
def FS.symlinkTo (fs : FS) (src dest : String) : Except FsError FS :=
  if fs.isBad dest then .error (.ioErr dest)
  else match fs.lookup dest with
    | some _ => .error (.eexist dest)
    | none => .ok (fs.setEntry dest (.symlinkEntry src))

/-- External collaborators of the command: the `semver` library, the `glob`
library (pattern, cwd ↦ matched relative paths), the npm installer
(`NpmUtilities.installInDir`, external subprocess), the package filter
(`PackageUtilities.filterPackages`, out of scope per the spec), and
`this.repository.linkedFiles.prefix` from the workspace configuration. -/
structure Env where
  satisfies : String → String → Bool
  globMatch : String → String → List String
  installResult : String → List String → Except FsError Unit
  filterPackages : List Package → List Package
  linkedFilesHeaderOpt : Option String
  deriving Inhabited

/-- `this.repository.linkedFiles.prefix || ""`. -/
def Env.headerStr (env : Env) : String := env.linkedFilesHeaderOpt.getD ""

/-- `isCompatableVersion(actual, expected)` — delegates to
`semver.satisfies`. -/
def isCompatableVersion (env : Env) (actual expected : String) : Bool :=
  env.satisfies actual expected

/-- Observable events of one run we need to reason about: warning messages
emitted through `this.logger.warning`, and one entry per invocation of
`isCompatableVersion`, keyed by (dependent name, dependency name). -/
structure Trace where
  warnings : List String
  compatEvals : List (String × String)
  deriving Repr, DecidableEq

def Trace.empty : Trace := ⟨[], []⟩

def Trace.app (t u : Trace) : Trace :=
  ⟨t.warnings ++ u.warnings, t.compatEvals ++ u.compatEvals⟩

/-- The warning text of `hasMatchingDependency`. -/
def mismatchWarning (pkg dependency : Package) (expectedVersion : String) : String :=
  "Version mismatch inside \"" ++ pkg.name ++ "\". " ++
  "Depends on \"" ++ dependency.name ++ "@" ++ expectedVersion ++ "\" " ++
  "instead of \"" ++ dependency.name ++ "@" ++ dependency.version ++ "\"."

/-- `hasMatchingDependency(pkg, dependency, showWarning)`.  Returns the
boolean plus the trace of what it logged and evaluated.  Note the JS guard
`if (!expectedVersion) return false`: it fires both when the name is not a
key of `allDependencies` and when the declared range is the empty string
(falsy), and in either case `isCompatableVersion` is never reached. -/
def hasMatchingDependency (env : Env) (pkg dependency : Package)
    (showWarning : Bool) : Bool × Trace :=
  match lookupDep pkg.allDependencies dependency.name with
  | none => (false, Trace.empty)
  | some expectedVersion =>
    if expectedVersion = "" then (false, Trace.empty)
    else
      let t : Trace := ⟨[], [(pkg.name, dependency.name)]⟩
      if isCompatableVersion env dependency.version expectedVersion then (true, t)
      else if showWarning then
        (false, ⟨[mismatchWarning pkg dependency expectedVersion], t.compatEvals⟩)
      else (false, t)

/-- `hasDependencyInstalled(pkg, dependency)`: `require` the installed
copy's `package.json` and test its version against the declared range; the
surrounding `try`/`catch` turns any read or parse failure into `false`. -/
def hasDependencyInstalled (env : Env) (fs : FS) (pkg : Package)
    (dependency : String) : Bool × Trace :=
  let packageJson := pathJoin (pathJoin pkg.nodeModulesLocation dependency) "package.json"
  match fs.readManifest packageJson with
  | none => (false, Trace.empty)
  | some m =>
    match lookupDep pkg.allDependencies dependency with
    | none => (false, Trace.empty)
    | some expected =>
      (isCompatableVersion env m.version expected, ⟨[], [(pkg.name, dependency)]⟩)

/-- `Array.prototype.filter` with a trace-producing predicate: the
predicate runs on every element, kept or not, and the traces accumulate in
order. -/
def filterWithTrace {α : Type} (f : α → Bool × Trace) : List α → List α × Trace
  | [] => ([], Trace.empty)
  | a :: rest =>
    let r := f a
    let rec' := filterWithTrace f rest
    (if r.1 then a :: rec'.1 else rec'.1, r.2.app rec'.2)

/-- The first filter of `installExternalPackages`: keep dependency names
with no satisfying workspace match (`find` returns the first package of
that name; `!(match && hasMatchingDependency(pkg, match))`). -/
def noLocalMatch (env : Env) (packages : List Package) (pkg : Package)
    (dependency : String) : Bool × Trace :=
  match packages.find? (fun p => p.name = dependency) with
  | none => (true, Trace.empty)
  | some m =>
    let r := hasMatchingDependency env pkg m false
    (!r.1, r.2)

/-- The dependency names of `pkg` that survive both filters of
`installExternalPackages` (not satisfied by a workspace package, not
already installed), with the trace of all compatibility checks made. -/
def installFilteredDeps (env : Env) (packages : List Package) (fs : FS)
    (pkg : Package) : List String × Trace :=
  let step1 := filterWithTrace (noLocalMatch env packages pkg)
    (pkg.allDependencies.map (fun kv => kv.1))
  let step2 := filterWithTrace
    (fun d =>
      let r := hasDependencyInstalled env fs pkg d
      (!r.1, r.2)) step1.1
  (step2.1, step1.2.app step2.2)

/-- The `name@range` batch handed to `NpmUtilities.installInDir`. -/
def externalPackagesOf (env : Env) (packages : List Package) (fs : FS)
    (pkg : Package) : List String :=
  (installFilteredDeps env packages fs pkg).1.map
    (fun d => d ++ "@" ++ (lookupDep pkg.allDependencies d).getD "")

/-- `installExternalPackages(pkg, callback)`: filter the declared
dependencies, and invoke the installer once when the batch is non-empty. -/
def installExternalPackages (env : Env) (packages : List Package) (fs : FS)
    (pkg : Package) : Except FsError Unit × Trace :=
  let externalPackages := externalPackagesOf env packages fs pkg
  let t := (installFilteredDeps env packages fs pkg).2
  if externalPackages.isEmpty then (.ok (), t)
  else (env.installResult pkg.location externalPackages, t)

/-- The body of the re-export statement a generated proxy file carries. -/
def reexportStatement (target : String) : String :=
  "module.exports = require(" ++ jsonStringifyString target ++ ");"

/-- The per-file step of `createLinkedDependencyFiles` (the inner
`async.series`): ensure the destination's parent directory, then either
write a proxy file (`.js` extension) or create a symbolic link, swallowing
only an `EEXIST` rejection of the link. -/
def linkOneFile (env : Env) (fs : FS) (src dest file : String) :
    Except FsError FS := do
  let dir := dirname (pathJoin dest file)
  let fs1 ← fs.mkdirp dir
  if extname file = ".js" then
    let fileContent := env.headerStr ++ reexportStatement (pathJoin src file)
    fs1.writeFile (pathJoin dest file) fileContent
  else
    match fs1.symlinkTo (pathJoin src file) (pathJoin dest file) with
    | .error (.eexist _) => .ok fs1
    | .error e => .error e
    | .ok fs2 => .ok fs2

/-- The `async.each` over all glob-matched files (sequential embedding of
the parallel fan-out, stopping at the first error as the pair's callback
observes it). -/
def linkMatchedFiles (env : Env) (fs : FS) (src dest : String) :
    List String → Except FsError FS
  | [] => .ok fs
  | f :: rest => do
    let fs1 ← linkOneFile env fs src dest f
    linkMatchedFiles env fs1 src dest rest

/-- The glob-expanded file list: every pattern of `pkg.lerna.files` (or
none) followed by `pkg.main`, expanded relative to `src` and flattened. -/
def matchedFiles (env : Env) (src : String) (m : Manifest) : List String :=
  ((m.lernaFiles.getD [] ++ [m.main]).map (fun pat => env.globMatch pat src)).flatten

/-- `JSON.stringify({name, version}, null, "  ")` — the minimal generated
manifest of the ES-module source (`src/commands/BootstrapCommand.js`). -/
def packageJsonFileContents (name version : String) : String :=
  jsonStringifyObj [("name", name), ("version", version)]

/-- `JSON.stringify({name, version, main}, null, "  ")` — the generated
manifest of the checked-in compiled variant of the same class, which also
copies `main`. -/
def packageJsonFileContentsCompiled (name version main : String) : String :=
  jsonStringifyObj [("name", name), ("version", version), ("main", main)]

/-- `createLinkedDependencyFiles(src, dest, name, callback)`.  The
`require` of the sibling's own `package.json` is not guarded: a read or
parse failure there throws out of the pipeline (`requireFailed`).  The
`async.parallel` of file materialization and the manifest write is
embedded sequentially, files first. -/
def createLinkedDependencyFiles (env : Env) (fs : FS) (src dest name : String) :
    Except FsError FS := do
  let srcPackageJsonLocation := pathJoin src "package.json"
  let destPackageJsonLocation := pathJoin dest "package.json"
  match fs.readManifest srcPackageJsonLocation with
  | none => .error (.requireFailed srcPackageJsonLocation)
  | some pkg =>
    let fs1 ← linkMatchedFiles env fs src dest (matchedFiles env src pkg)
    fs1.writeFile destPackageJsonLocation (packageJsonFileContents name pkg.version)

/-- The compiled variant of `createLinkedDependencyFiles` (identical
control flow; its generated manifest additionally carries `main`). -/
def createLinkedDependencyFilesCompiled (env : Env) (fs : FS) (src dest name : String) :
    Except FsError FS := do
  let srcPackageJsonLocation := pathJoin src "package.json"
  let destPackageJsonLocation := pathJoin dest "package.json"
  match fs.readManifest srcPackageJsonLocation with
  | none => .error (.requireFailed srcPackageJsonLocation)
  | some pkg =>
    let fs1 ← linkMatchedFiles env fs src dest (matchedFiles env src pkg)
    fs1.writeFile destPackageJsonLocation
      (packageJsonFileContentsCompiled name pkg.version pkg.main)

/-- `createLinkedDependency(src, dest, name, callback)`: idempotent reset
of the link target, then file creation. -/
def createLinkedDependency (env : Env) (fs : FS) (src dest name : String) :
    Except FsError FS := do
  let fs1 ← fs.rimraf dest
  let fs2 ← fs1.mkdirp dest
  createLinkedDependencyFiles env fs2 src dest name

/-- The siblings `linkDependenciesForPackage` actually links: the packages
of `this.packages` (the whole workspace list, `pkg` itself included) that
pass `hasMatchingDependency(pkg, dependency, true)`. -/
def linkedSiblings (env : Env) (packages : List Package) (pkg : Package) :
    List Package :=
  packages.filter (fun dependency => (hasMatchingDependency env pkg dependency true).1)

/-- The warnings and compatibility evaluations of the linking phase: the
iteratee of `async.each` runs `hasMatchingDependency` synchronously for
every package before any link completes. -/
def linkPhaseTrace (env : Env) (packages : List Package) (pkg : Package) : Trace :=
  (packages.map (fun dependency => (hasMatchingDependency env pkg dependency true).2)).foldr
    Trace.app Trace.empty

/-- Perform the links of the eligible siblings in order (sequential
embedding of the parallel fan-out). -/
def linkAll (env : Env) (fs : FS) (pkg : Package) :
    List Package → Except FsError FS
  | [] => .ok fs
  | dependency :: rest => do
    let fs1 ← createLinkedDependency env fs dependency.location
      (pathJoin pkg.nodeModulesLocation dependency.name) dependency.name
    linkAll env fs1 pkg rest

/-- `linkDependenciesForPackage(pkg, callback)`. -/
def linkDependenciesForPackage (env : Env) (packages : List Package) (fs : FS)
    (pkg : Package) : Except FsError FS × Trace :=
  (linkAll env fs pkg (linkedSiblings env packages pkg),
   linkPhaseTrace env packages pkg)

/-- The per-package `async.series` task built inside `linkDependencies`:
`mkdirp(pkg.nodeModulesLocation)`, then `installExternalPackages`, then
`linkDependenciesForPackage`, stopping at the first error. -/
def bootstrapPackage (env : Env) (packages : List Package) (fs : FS)
    (pkg : Package) : Except FsError FS × Trace :=
  match fs.mkdirp pkg.nodeModulesLocation with
  | .error e => (.error e, Trace.empty)
  | .ok fs1 =>
    let ir := installExternalPackages env packages fs1 pkg
    match ir.1 with
    | .error e => (.error e, ir.2)
    | .ok _ =>
      let lr := linkDependenciesForPackage env packages fs1 pkg
      (lr.1, ir.2.app lr.2)

/-- The `async.parallelLimit` pool over the per-package tasks, embedded
sequentially (the observable fail-fast semantics of the pool: once a
task's callback reports an error the final callback fires with it and no
further task is started).  Also returns the `progressBar.tick` events, one
per task that ran to completion. -/
def runPipelines (env : Env) (packages : List Package) :
    FS → List Package → Except FsError FS × List String
  | fs, [] => (.ok fs, [])
  | fs, pkg :: rest =>
    let r := bootstrapPackage env packages fs pkg
    match r.1 with
    | .error e => (.error e, [pkg.name])
    | .ok fs1 =>
      let r' := runPipelines env packages fs1 rest
      (r'.1, pkg.name :: r'.2)

/-- `linkDependencies(callback)`: filter the workspace packages and run
one bootstrap task per surviving package under the pool. -/
def linkDependencies (env : Env) (packages : List Package) (fs : FS) :
    Except FsError FS × List String :=
  runPipelines env packages fs (env.filterPackages packages)

/-- `execute(callback)`: propagate the first failure unchanged, otherwise
report success (`callback(null, true)`). -/
def execute (env : Env) (packages : List Package) (fs : FS) : Except FsError Bool :=
  match (linkDependencies env packages fs).1 with
  | .error e => .error e
  | .ok _ => .ok true

/-! ### Basic lemmas about the eligibility check and the linking phase -/

theorem hasMatchingDependency_fst (env : Env) (pkg d : Package) (w : Bool) :
    (hasMatchingDependency env pkg d w).1 = true ↔
      ∃ r, lookupDep pkg.allDependencies d.name = some r ∧ r ≠ "" ∧
        env.satisfies d.version r = true := by
  cases h : lookupDep pkg.allDependencies d.name with
  | none => simp [hasMatchingDependency, h]
  | some r =>
    by_cases hr : r = ""
    · subst hr; simp [hasMatchingDependency, h]
    · by_cases hs : env.satisfies d.version r = true
      · simp [hasMatchingDependency, h, hr, hs, isCompatableVersion]
      · cases w <;>
          simp_all [hasMatchingDependency, h, hr, isCompatableVersion]

theorem hasMatchingDependency_warning (env : Env) (pkg d : Package) (r : String)
    (h : lookupDep pkg.allDependencies d.name = some r) (hr : r ≠ "")
    (hs : env.satisfies d.version r = false) :
    (hasMatchingDependency env pkg d true).2.warnings = [mismatchWarning pkg d r] := by
  simp [hasMatchingDependency, h, hr, isCompatableVersion, hs]

theorem hasMatchingDependency_evals_declared (env : Env) (pkg d : Package)
    (w : Bool) (r : String)
    (h : lookupDep pkg.allDependencies d.name = some r) (hr : r ≠ "") :
    (hasMatchingDependency env pkg d w).2.compatEvals = [(pkg.name, d.name)] := by
  by_cases hs : env.satisfies d.version r = true <;>
    cases w <;>
    simp_all [hasMatchingDependency, h, hr, isCompatableVersion]

theorem hasMatchingDependency_evals_mem (env : Env) (pkg d : Package) (w : Bool) :
    ∀ pr ∈ (hasMatchingDependency env pkg d w).2.compatEvals,
      pr = (pkg.name, d.name) := by
  cases h : lookupDep pkg.allDependencies d.name with
  | none => simp [hasMatchingDependency, h, Trace.empty]
  | some r =>
    by_cases hr : r = ""
    · subst hr; simp [hasMatchingDependency, h, Trace.empty]
    · by_cases hs : env.satisfies d.version r = true <;>
        cases w <;>
        simp_all [hasMatchingDependency, h, hr, isCompatableVersion]

theorem linkedSiblings_mem (env : Env) (packages : List Package) (pkg d : Package) :
    d ∈ linkedSiblings env packages pkg ↔
      d ∈ packages ∧ (hasMatchingDependency env pkg d true).1 = true := by
  simp [linkedSiblings, List.mem_filter]

theorem linkPhaseTrace_warnings (env : Env) (packages : List Package) (pkg : Package) :
    (linkPhaseTrace env packages pkg).warnings =
      (packages.map
        (fun d => (hasMatchingDependency env pkg d true).2.warnings)).flatten := by
  induction packages with
  | nil => rfl
  | cons d rest ih => simp [linkPhaseTrace, Trace.app] at ih ⊢; simp [ih]

theorem linkPhaseTrace_evals (env : Env) (packages : List Package) (pkg : Package) :
    (linkPhaseTrace env packages pkg).compatEvals =
      (packages.map
        (fun d => (hasMatchingDependency env pkg d true).2.compatEvals)).flatten := by
  induction packages with
  | nil => rfl
  | cons d rest ih => simp [linkPhaseTrace, Trace.app] at ih ⊢; simp [ih]

/-! ### Concrete instances used by witnesses and counterexamples -/

/-- Behavioural stand-in for `semver.satisfies` on the ranges appearing in
the concrete scenarios: the empty range accepts every version (as semver
does), any other range accepts exactly itself. -/
def satEq : String → String → Bool := fun v r => r = "" || v = r

/-- A glob oracle where each pattern matches exactly itself (a literal
file name), the common case for `main` entries. -/
def globSelf : String → String → List String := fun pat _ => [pat]

/-- Environment of the concrete scenarios: exact-match semver, literal
glob, always-succeeding installer, identity package filter, and a
configured generated-file header. -/
def envEx : Env :=
  { satisfies := satEq
    globMatch := globSelf
    installResult := fun _ _ => .ok ()
    filterPackages := id
    linkedFilesHeaderOpt := some "/* gen */" }

/-- Workspace package `B`, version `1.2.0`, main entry `index.js`. -/
def wsB : Package :=
  { name := "B", version := "1.2.0", location := "/ws/B"
    nodeModulesLocation := "/ws/B/node_modules", allDependencies := [] }

/-- Workspace package `A` declaring `B@1.2.0`. -/
def wsA : Package :=
  { name := "A", version := "1.0.0", location := "/ws/A"
    nodeModulesLocation := "/ws/A/node_modules"
    allDependencies := [("B", "1.2.0")] }

/-- Filesystem holding only `B`'s readable manifest. -/
def fsAB : FS :=
  { entries := []
    manifests := [("/ws/B/package.json",
      { version := "1.2.0", main := "index.js", lernaFiles := none })]
    badPaths := [] }

/-- A package declaring itself with a compatible range. -/
def pkgSelfA : Package :=
  { name := "A", version := "1.0.0", location := "/ws/A"
    nodeModulesLocation := "/ws/A/node_modules"
    allDependencies := [("A", "1.0.0")] }

/-- Package `P` declaring `S` with the empty range `""` (which real semver
satisfies for every version, but which the code's falsy-guard treats as
undeclared). -/
def pkgEmptyP : Package :=
  { name := "P", version := "1.0.0", location := "/ws/P"
    nodeModulesLocation := "/ws/P/node_modules"
    allDependencies := [("S", "")] }

/-- Sibling `S`, version `1.0.0`. -/
def pkgS0 : Package :=
  { name := "S", version := "1.0.0", location := "/ws/S"
    nodeModulesLocation := "/ws/S/node_modules", allDependencies := [] }

/-- Package `P2` declaring `S@2.0.0` while the workspace `S` is `1.2.0`
(the spec's version-mismatch scenario). -/
def pkgP2 : Package :=
  { name := "P2", version := "1.0.0", location := "/ws/P2"
    nodeModulesLocation := "/ws/P2/node_modules"
    allDependencies := [("S", "2.0.0")] }

/-- Sibling `S`, version `1.2.0`. -/
def pkgS2 : Package :=
  { name := "S", version := "1.2.0", location := "/ws/S"
    nodeModulesLocation := "/ws/S/node_modules", allDependencies := [] }

/-- The empty filesystem. -/
def fs0 : FS := { entries := [], manifests := [], badPaths := [] }

/-! ### C1 — linking eligibility and the mismatch warning -/

/-- C1 (counterexample): with the declared range `""` — which is a key of
`allDependencies` and which the compatibility oracle satisfies, as real
semver does for every version — the sibling is nevertheless not linked,
because `hasMatchingDependency`'s falsy guard `if (!expectedVersion)`
returns `false` before the compatibility check.  This refutes "linking is
performed if and only if S.name is a key in P.allDependencies and
isCompatible(S.version, P.allDependencies[S.name]) holds". -/
theorem c1_counterexample :
    lookupDep pkgEmptyP.allDependencies pkgS0.name = some "" ∧
    envEx.satisfies pkgS0.version "" = true ∧
    pkgS0 ∈ [pkgEmptyP, pkgS0] ∧
    pkgS0 ∉ linkedSiblings envEx [pkgEmptyP, pkgS0] pkgEmptyP := by
  decide

/-- C1 (amended): for dependent `P` and candidate sibling `S`, linking is
performed iff `S.name` is a key of `P.allDependencies` with a non-empty
declared range and the compatibility check holds; when `S` is declared
with a non-empty range but incompatible, no link is attempted for that
pair and the version-mismatch warning is emitted by the linking phase
rather than an error. -/
theorem c1_link_eligibility (env : Env) (packages : List Package) (fs : FS)
    (pkg d : Package) :
    (d ∈ linkedSiblings env packages pkg ↔
      d ∈ packages ∧ ∃ r, lookupDep pkg.allDependencies d.name = some r ∧
        r ≠ "" ∧ env.satisfies d.version r = true)
  ∧ (∀ r, d ∈ packages →
      lookupDep pkg.allDependencies d.name = some r → r ≠ "" →
      env.satisfies d.version r = false →
      d ∉ linkedSiblings env packages pkg ∧
      mismatchWarning pkg d r ∈
        (linkDependenciesForPackage env packages fs pkg).2.warnings) := by
  constructor
  · simp [linkedSiblings_mem, hasMatchingDependency_fst]
  · intro r hd hl hr hs
    constructor
    · intro hmem
      rcases (linkedSiblings_mem env packages pkg d).1 hmem with ⟨-, hm⟩
      rcases (hasMatchingDependency_fst env pkg d true).1 hm with ⟨r', hl', -, hs'⟩
      rw [hl] at hl'
      cases hl'
      rw [hs] at hs'
      exact Bool.false_ne_true hs'
    · have hw := hasMatchingDependency_warning env pkg d r hl hr hs
      simp only [linkDependenciesForPackage, linkPhaseTrace_warnings]
      rw [List.mem_flatten]
      exact ⟨[mismatchWarning pkg d r], by
        rw [List.mem_map]; exact ⟨d, hd, hw⟩, by simp⟩

/-- C1 (witness): the spec's mismatch scenario — `P2` declares `S@2.0.0`,
the workspace `S` is `1.2.0` — yields no link and the warning. -/
theorem c1_link_eligibility_witness :
    pkgS2 ∉ linkedSiblings envEx [pkgP2, pkgS2] pkgP2 ∧
    mismatchWarning pkgP2 pkgS2 "2.0.0" ∈
      (linkDependenciesForPackage envEx [pkgP2, pkgS2] fs0 pkgP2).2.warnings :=
  (c1_link_eligibility envEx [pkgP2, pkgS2] fs0 pkgP2 pkgS2).2 "2.0.0"
    (by decide) (by decide) (by decide) (by decide)

/-! ### C6 — the dependent package is itself a linking candidate -/

/-- C6 (counterexample): a package that declares its own name with a
compatible range is linked into its own dependency directory: the linking
phase iterates over the whole workspace list, with no self-exclusion.
This refutes "P is never considered, and never linked, as a dependency of
its own pipeline". -/
theorem c6_counterexample :
    pkgSelfA ∈ linkedSiblings envEx [pkgSelfA] pkgSelfA ∧
    linkedSiblings envEx [pkgSelfA] pkgSelfA = [pkgSelfA] := by
  decide

/-- C6 (amended): the linking phase of `P`'s pipeline evaluates every
package of the workspace list as a candidate, `P` itself included; `P` is
linked as its own dependency exactly when it declares its own name with a
non-empty range that its own version satisfies. -/
theorem c6_self_candidate (env : Env) (packages : List Package) (pkg : Package) :
    pkg ∈ linkedSiblings env packages pkg ↔
      pkg ∈ packages ∧ ∃ r, lookupDep pkg.allDependencies pkg.name = some r ∧
        r ≠ "" ∧ env.satisfies pkg.version r = true := by
  simp [linkedSiblings_mem, hasMatchingDependency_fst]

/-! ### Lemmas about the external-install filters -/

theorem filterWithTrace_fst {α : Type} (f : α → Bool × Trace) (l : List α) :
    (filterWithTrace f l).1 = l.filter (fun a => (f a).1) := by
  induction l with
  | nil => rfl
  | cons b rest ih =>
    by_cases hb : (f b).1 <;> simp [filterWithTrace, List.filter_cons, hb, ih]

theorem filterWithTrace_evals {α : Type} (f : α → Bool × Trace) (l : List α) :
    (filterWithTrace f l).2.compatEvals =
      (l.map (fun a => (f a).2.compatEvals)).flatten := by
  induction l with
  | nil => rfl
  | cons b rest ih => simp [filterWithTrace, Trace.app, ih]

theorem noLocalMatch_false_iff (env : Env) (packages : List Package) (pkg : Package)
    (d : String) (hnd : (packages.map Package.name).Nodup) :
    (noLocalMatch env packages pkg d).1 = false ↔
      ∃ m ∈ packages, m.name = d ∧
        (hasMatchingDependency env pkg m false).1 = true := by
  cases h : packages.find? (fun p => p.name = d) with
  | none =>
    simp only [noLocalMatch, h]
    constructor
    · intro hc; exact absurd hc (by simp)
    · rintro ⟨m, hm, hname, -⟩
      have := List.find?_eq_none.1 h m hm
      simp [hname] at this
  | some m =>
    have hmem : m ∈ packages := List.mem_of_find?_eq_some h
    have hname : m.name = d := by simpa using List.find?_some h
    simp only [noLocalMatch, h, Bool.not_eq_false']
    constructor
    · intro hb; exact ⟨m, hmem, hname, hb⟩
    · rintro ⟨S, hS, hSname, hSb⟩
      have : m = S :=
        List.inj_on_of_nodup_map hnd hmem hS (by rw [hname, hSname])
      rw [this]; exact hSb

theorem hasDependencyInstalled_fst (env : Env) (fs : FS) (pkg : Package)
    (d : String) :
    (hasDependencyInstalled env fs pkg d).1 = true ↔
      ∃ m, fs.readManifest
          (pathJoin (pathJoin pkg.nodeModulesLocation d) "package.json") = some m ∧
        ∃ r, lookupDep pkg.allDependencies d = some r ∧
          env.satisfies m.version r = true := by
  cases h : fs.readManifest
      (pathJoin (pathJoin pkg.nodeModulesLocation d) "package.json") with
  | none => simp [hasDependencyInstalled, h]
  | some m =>
    cases h2 : lookupDep pkg.allDependencies d with
    | none => simp [hasDependencyInstalled, h, h2]
    | some r => simp [hasDependencyInstalled, h, h2, isCompatableVersion]

theorem installFilteredDeps_mem (env : Env) (packages : List Package) (fs : FS)
    (pkg : Package) (d : String) :
    d ∈ (installFilteredDeps env packages fs pkg).1 ↔
      d ∈ pkg.allDependencies.map Prod.fst ∧
      (noLocalMatch env packages pkg d).1 = true ∧
      (hasDependencyInstalled env fs pkg d).1 = false := by
  simp only [installFilteredDeps, filterWithTrace_fst, List.mem_filter,
    Bool.not_eq_true', and_assoc]

/-! ### C3 — exclusion from the external-install batch -/

/-- C3 (counterexample): `P` declares `S` with the empty range.  A
workspace package named `S` exists and the compatibility oracle accepts
its version against the declared range (as real semver does for the empty
range), and no installed copy exists — so the claim says `S` is excluded
from the batch — yet the code keeps it and hands `S@` to the installer,
because the falsy-range guard makes the sibling check fail. -/
theorem c3_counterexample :
    pkgS0 ∈ [pkgEmptyP, pkgS0] ∧ pkgS0.name = "S" ∧
    lookupDep pkgEmptyP.allDependencies "S" = some "" ∧
    envEx.satisfies pkgS0.version "" = true ∧
    (hasDependencyInstalled envEx fs0 pkgEmptyP "S").1 = false ∧
    "S" ∈ (installFilteredDeps envEx [pkgEmptyP, pkgS0] fs0 pkgEmptyP).1 ∧
    externalPackagesOf envEx [pkgEmptyP, pkgS0] fs0 pkgEmptyP = ["S@"] := by
  decide

/-- C3 (amended): for a declared dependency name `d` of `P` (workspace
package names being unique), `d` is excluded from the external-install
batch iff (a) a workspace package named `d` exists (the dependent itself
included) whose declared range is non-empty and whose version satisfies
it, or (b) an installed copy under `P`'s dependency directory has a
readable manifest whose version satisfies the declared range (a manifest
read or parse failure counting as not installed); every surviving
dependency is expressed as `name@range`. -/
theorem c3_external_exclusion (env : Env) (packages : List Package) (fs : FS)
    (pkg : Package) (d : String)
    (hnd : (packages.map Package.name).Nodup)
    (hdecl : d ∈ pkg.allDependencies.map Prod.fst) :
    (d ∉ (installFilteredDeps env packages fs pkg).1 ↔
      (∃ S ∈ packages, S.name = d ∧
        ∃ r, lookupDep pkg.allDependencies d = some r ∧ r ≠ "" ∧
          env.satisfies S.version r = true) ∨
      (∃ m, fs.readManifest
          (pathJoin (pathJoin pkg.nodeModulesLocation d) "package.json") = some m ∧
        ∃ r, lookupDep pkg.allDependencies d = some r ∧
          env.satisfies m.version r = true)) ∧
    externalPackagesOf env packages fs pkg =
      (installFilteredDeps env packages fs pkg).1.map
        (fun d => d ++ "@" ++ (lookupDep pkg.allDependencies d).getD "") := by
  refine ⟨?_, rfl⟩
  have hsib : (noLocalMatch env packages pkg d).1 = false ↔
      ∃ S ∈ packages, S.name = d ∧
        ∃ r, lookupDep pkg.allDependencies d = some r ∧ r ≠ "" ∧
          env.satisfies S.version r = true := by
    rw [noLocalMatch_false_iff env packages pkg d hnd]
    constructor
    · rintro ⟨m, hm, hname, hb⟩
      rcases (hasMatchingDependency_fst env pkg m false).1 hb with ⟨r, hl, hr, hs⟩
      exact ⟨m, hm, hname, r, by rwa [hname] at hl, hr, hs⟩
    · rintro ⟨S, hS, hSname, r, hl, hr, hs⟩
      exact ⟨S, hS, hSname,
        (hasMatchingDependency_fst env pkg S false).2 ⟨r, by rwa [hSname], hr, hs⟩⟩
  rw [installFilteredDeps_mem]
  rw [← hsib, ← hasDependencyInstalled_fst]
  constructor
  · intro hno
    rcases Decidable.em ((noLocalMatch env packages pkg d).1 = true) with ht | hf
    · rcases Decidable.em ((hasDependencyInstalled env fs pkg d).1 = true) with hi | hni
      · exact Or.inr hi
      · exact absurd ⟨hdecl, ht, Bool.not_eq_true _ ▸ hni⟩ hno
    · exact Or.inl (Bool.not_eq_true _ ▸ hf)
  · rintro (hf | hi) ⟨-, h2, h3⟩
    · rw [h2] at hf; exact absurd hf (by simp)
    · rw [h3] at hi; exact Bool.false_ne_true hi

/-- C3 (witness): in the `A` declares `B@1.2.0` workspace, `B` is excluded
from `A`'s batch (the sibling satisfies the range). -/
theorem c3_external_exclusion_witness :
    ("B" ∉ (installFilteredDeps envEx [wsA, wsB] fsAB wsA).1 ↔
      (∃ S ∈ [wsA, wsB], S.name = "B" ∧
        ∃ r, lookupDep wsA.allDependencies "B" = some r ∧ r ≠ "" ∧
          envEx.satisfies S.version r = true) ∨
      (∃ m, fsAB.readManifest
          (pathJoin (pathJoin wsA.nodeModulesLocation "B") "package.json") = some m ∧
        ∃ r, lookupDep wsA.allDependencies "B" = some r ∧
          envEx.satisfies m.version r = true)) ∧
    externalPackagesOf envEx [wsA, wsB] fsAB wsA =
      (installFilteredDeps envEx [wsA, wsB] fsAB wsA).1.map
        (fun d => d ++ "@" ++ (lookupDep wsA.allDependencies d).getD "") :=
  c3_external_exclusion envEx [wsA, wsB] fsAB wsA "B" (by decide) (by decide)

/-! ### Counting compatibility evaluations (C4) -/

theorem lookupDep_mem_keys (deps : List (String × String)) (n r : String)
    (h : lookupDep deps n = some r) : n ∈ deps.map Prod.fst := by
  unfold lookupDep at h
  cases hf : deps.find? (fun kv => kv.1 = n) with
  | none => rw [hf] at h; simp at h
  | some kv =>
    have hm := List.mem_of_find?_eq_some hf
    have hkv : kv.1 = n := by simpa using List.find?_some hf
    exact hkv ▸ List.mem_map_of_mem Prod.fst hm

theorem find?_name_of_mem (packages : List Package) (B : Package)
    (hnames : (packages.map Package.name).Nodup) (hB : B ∈ packages) :
    packages.find? (fun p => p.name = B.name) = some B := by
  cases h : packages.find? (fun p => p.name = B.name) with
  | none =>
    have := List.find?_eq_none.1 h B hB
    simp at this
  | some m =>
    have hmem := List.mem_of_find?_eq_some h
    have hname : m.name = B.name := by simpa using List.find?_some h
    rw [List.inj_on_of_nodup_map hnames hmem hB hname]

theorem noLocalMatch_evals_mem (env : Env) (packages : List Package)
    (pkg : Package) (d : String) :
    ∀ pr ∈ (noLocalMatch env packages pkg d).2.compatEvals, pr = (pkg.name, d) := by
  cases h : packages.find? (fun p => p.name = d) with
  | none => simp [noLocalMatch, h, Trace.empty]
  | some m =>
    have hname : m.name = d := by simpa using List.find?_some h
    intro pr hpr
    simp only [noLocalMatch, h] at hpr
    have := hasMatchingDependency_evals_mem env pkg m false pr hpr
    rw [this, hname]

theorem hasDependencyInstalled_evals_mem (env : Env) (fs : FS) (pkg : Package)
    (d : String) :
    ∀ pr ∈ (hasDependencyInstalled env fs pkg d).2.compatEvals,
      pr = (pkg.name, d) := by
  cases h : fs.readManifest
      (pathJoin (pathJoin pkg.nodeModulesLocation d) "package.json") with
  | none => simp [hasDependencyInstalled, h, Trace.empty]
  | some m =>
    cases h2 : lookupDep pkg.allDependencies d with
    | none => simp [hasDependencyInstalled, h, h2, Trace.empty]
    | some r => simp [hasDependencyInstalled, h, h2]

theorem sum_map_single {α : Type} [DecidableEq α] (l : List α) (key : α)
    (g : α → Nat) (h0 : ∀ a ∈ l, a ≠ key → g a = 0) (h1 : g key = 1)
    (hc : l.count key = 1) : (l.map g).sum = 1 := by
  induction l with
  | nil => simp at hc
  | cons b rest ih =>
    by_cases hb : b = key
    · subst hb
      rw [List.count_cons_self] at hc
      have hrest : rest.count b = 0 := by omega
      have hz : ∀ x ∈ rest.map g, x = 0 := by
        intro x hx
        rcases List.mem_map.1 hx with ⟨a, ha, rfl⟩
        refine h0 a (List.mem_cons_of_mem _ ha) (fun hak => ?_)
        subst hak
        rw [List.count_eq_zero] at hrest
        exact hrest ha
      simp [h1, List.sum_eq_zero hz]
    · have hg : g b = 0 := h0 b (List.mem_cons_self b rest) hb
      rw [List.count_cons_of_ne (fun h => hb h.symm)] at hc
      simp [hg, ih (fun a ha => h0 a (List.mem_cons_of_mem _ ha)) hc]

theorem installFilteredDeps_count (env : Env) (packages : List Package) (fs : FS)
    (pkg B : Package) (r : String)
    (hnames : (packages.map Package.name).Nodup)
    (hkeys : (pkg.allDependencies.map Prod.fst).Nodup)
    (hB : B ∈ packages)
    (hl : lookupDep pkg.allDependencies B.name = some r) (hr : r ≠ "")
    (hsat : env.satisfies B.version r = true) :
    ((installFilteredDeps env packages fs pkg).2.compatEvals).count
      (pkg.name, B.name) = 1 := by
  have hfind := find?_name_of_mem packages B hnames hB
  have hmatch : (hasMatchingDependency env pkg B false).1 = true :=
    (hasMatchingDependency_fst env pkg B false).2 ⟨r, hl, hr, hsat⟩
  have hNoLocal : (noLocalMatch env packages pkg B.name).1 = false := by
    simp [noLocalMatch, hfind, hmatch]
  have hnotstep1 : B.name ∉ (filterWithTrace (noLocalMatch env packages pkg)
      (pkg.allDependencies.map (fun kv => kv.1))).1 := by
    rw [filterWithTrace_fst]
    intro hmem
    have := (List.mem_filter.1 hmem).2
    rw [hNoLocal] at this
    exact absurd this (by simp)
  have hkeys' : (pkg.allDependencies.map (fun kv => kv.1)).count B.name = 1 :=
    List.count_eq_one_of_mem hkeys (lookupDep_mem_keys _ _ _ hl)
  simp only [installFilteredDeps, Trace.app, List.count_append]
  have hc1 : ((filterWithTrace (noLocalMatch env packages pkg)
      (pkg.allDependencies.map (fun kv => kv.1))).2.compatEvals).count
        (pkg.name, B.name) = 1 := by
    rw [filterWithTrace_evals, List.count_flatten, List.map_map]
    refine sum_map_single _ B.name _ ?_ ?_ hkeys'
    · intro d _ hd
      simp only [Function.comp_apply, List.count_eq_zero]
      intro hpr
      have := noLocalMatch_evals_mem env packages pkg d _ hpr
      exact hd (by simpa using congrArg Prod.snd this.symm)
    · simp only [Function.comp_apply]
      have : (noLocalMatch env packages pkg B.name).2.compatEvals =
          [(pkg.name, B.name)] := by
        simp [noLocalMatch, hfind,
          hasMatchingDependency_evals_declared env pkg B false r hl hr]
      simp [this]
  have hc2 : ((filterWithTrace
      (fun d =>
        let r := hasDependencyInstalled env fs pkg d
        (!r.1, r.2))
      (filterWithTrace (noLocalMatch env packages pkg)
        (pkg.allDependencies.map (fun kv => kv.1))).1).2.compatEvals).count
        (pkg.name, B.name) = 0 := by
    rw [filterWithTrace_evals, List.count_eq_zero]
    intro hmem
    rw [List.mem_flatten] at hmem
    rcases hmem with ⟨l, hl2, hpr⟩
    rcases List.mem_map.1 hl2 with ⟨d, hd, rfl⟩
    have := hasDependencyInstalled_evals_mem env fs pkg d _ hpr
    have hdB : d = B.name := by simpa using congrArg Prod.snd this.symm
    exact hnotstep1 (hdB ▸ hd)
  rw [hc1, hc2]

theorem linkPhaseTrace_count (env : Env) (packages : List Package)
    (pkg B : Package) (r : String)
    (hnames : (packages.map Package.name).Nodup) (hB : B ∈ packages)
    (hl : lookupDep pkg.allDependencies B.name = some r) (hr : r ≠ "") :
    ((linkPhaseTrace env packages pkg).compatEvals).count (pkg.name, B.name) = 1 := by
  rw [linkPhaseTrace_evals, List.count_flatten, List.map_map]
  refine sum_map_single packages B _ ?_ ?_
    (List.count_eq_one_of_mem (hnames.of_map Package.name) hB)
  · intro D hD hDB
    simp only [Function.comp_apply, List.count_eq_zero]
    intro hpr
    have := hasMatchingDependency_evals_mem env pkg D true _ hpr
    have hname : D.name = B.name := by simpa using congrArg Prod.snd this.symm
    exact hDB (List.inj_on_of_nodup_map hnames hD hB hname)
  · simp only [Function.comp_apply]
    rw [hasMatchingDependency_evals_declared env pkg B true r hl hr]
    simp

theorem linked_not_in_batch (env : Env) (packages : List Package) (fs : FS)
    (pkg : Package) (hnames : (packages.map Package.name).Nodup) :
    ∀ n ∈ (linkedSiblings env packages pkg).map Package.name,
      n ∉ (installFilteredDeps env packages fs pkg).1 := by
  intro n hn hmem
  rcases List.mem_map.1 hn with ⟨D, hD, rfl⟩
  rcases (linkedSiblings_mem env packages pkg D).1 hD with ⟨hDp, hDm⟩
  rcases (hasMatchingDependency_fst env pkg D true).1 hDm with ⟨r, hl, hr, hs⟩
  have hfalse : (noLocalMatch env packages pkg D.name).1 = false :=
    (noLocalMatch_false_iff env packages pkg D.name hnames).2
      ⟨D, hDp, rfl, (hasMatchingDependency_fst env pkg D false).2 ⟨r, hl, hr, hs⟩⟩
  rcases (installFilteredDeps_mem env packages fs pkg D.name).1 hmem with ⟨-, htrue, -⟩
  rw [hfalse] at htrue
  exact absurd htrue (by simp)

theorem linkedSiblings_count_one (env : Env) (packages : List Package)
    (pkg B : Package) (hnames : (packages.map Package.name).Nodup)
    (hB : B ∈ linkedSiblings env packages pkg) :
    ((linkedSiblings env packages pkg).map Package.name).count B.name = 1 := by
  have hsub : ((linkedSiblings env packages pkg).map Package.name).Sublist
      (packages.map Package.name) :=
    (List.filter_sublist packages).map Package.name
  have hBp : B ∈ packages := ((linkedSiblings_mem env packages pkg B).1 hB).1
  have hle : ((linkedSiblings env packages pkg).map Package.name).count B.name ≤ 1 := by
    calc ((linkedSiblings env packages pkg).map Package.name).count B.name
        ≤ (packages.map Package.name).count B.name := hsub.count_le B.name
      _ = 1 := List.count_eq_one_of_mem hnames (List.mem_map_of_mem Package.name hBp)
  have hge : 0 < ((linkedSiblings env packages pkg).map Package.name).count B.name :=
    List.count_pos_iff.mpr (List.mem_map_of_mem Package.name hB)
  omega

theorem installExternalPackages_snd (env : Env) (packages : List Package)
    (fs : FS) (pkg : Package) :
    (installExternalPackages env packages fs pkg).2 =
      (installFilteredDeps env packages fs pkg).2 := by
  by_cases h : (externalPackagesOf env packages fs pkg).isEmpty <;>
    simp [installExternalPackages, h]

/-! ### C4 — evaluation count, single linking, disjointness -/

/-- C4 (counterexample): in the plain scenario where `A` declares
`B@1.2.0` and the sibling `B` has version `1.2.0`, the bootstrap pipeline
for `A` evaluates version compatibility for the pair (A, B) twice — once
inside `installExternalPackages`'s sibling filter and once again in the
linking phase — refuting "version compatibility is evaluated exactly
once" per pair. -/
theorem c4_counterexample :
    ((bootstrapPackage envEx [wsA, wsB] fsAB wsA).2.compatEvals).count
      ("A", "B") = 2 := by
  decide

/-- C4 (amended): for a dependent `P` that reaches its linking phase
(directory creation and external install succeeded) and a sibling `B`
declared with a non-empty range that `B`'s version satisfies (workspace
names and declared keys unique), compatibility for the pair is evaluated
exactly twice per run — once in the external-install filter and once in
the linking phase, with the same immutable inputs; the pair is linked
exactly once, and no linked sibling's name is sent to the external-install
batch. -/
theorem c4_eval_twice_link_once (env : Env) (packages : List Package)
    (fs fs1 : FS) (pkg B : Package) (r : String)
    (hnames : (packages.map Package.name).Nodup)
    (hkeys : (pkg.allDependencies.map Prod.fst).Nodup)
    (hB : B ∈ packages)
    (hl : lookupDep pkg.allDependencies B.name = some r) (hr : r ≠ "")
    (hsat : env.satisfies B.version r = true)
    (hmk : fs.mkdirp pkg.nodeModulesLocation = .ok fs1)
    (hinst : (installExternalPackages env packages fs1 pkg).1 = .ok ()) :
    ((bootstrapPackage env packages fs pkg).2.compatEvals).count
        (pkg.name, B.name) = 2 ∧
    ((linkedSiblings env packages pkg).map Package.name).count B.name = 1 ∧
    (∀ n ∈ (linkedSiblings env packages pkg).map Package.name,
      n ∉ (installFilteredDeps env packages fs1 pkg).1) := by
  have hBl : B ∈ linkedSiblings env packages pkg :=
    (linkedSiblings_mem env packages pkg B).2
      ⟨hB, (hasMatchingDependency_fst env pkg B true).2 ⟨r, hl, hr, hsat⟩⟩
  refine ⟨?_, linkedSiblings_count_one env packages pkg B hnames hBl,
    linked_not_in_batch env packages fs1 pkg hnames⟩
  have hshape : (bootstrapPackage env packages fs pkg).2 =
      ((installExternalPackages env packages fs1 pkg).2).app
        (linkPhaseTrace env packages pkg) := by
    unfold bootstrapPackage
    rw [hmk]
    simp only [hinst, linkDependenciesForPackage]
  rw [hshape, installExternalPackages_snd, Trace.app, List.count_append,
    installFilteredDeps_count env packages fs1 pkg B r hnames hkeys hB hl hr hsat,
    linkPhaseTrace_count env packages pkg B r hnames hB hl hr]

/-- Result of `mkdirp` on `A`'s dependency directory in the concrete
scenario. -/
def fsAB1 : FS :=
  { fsAB with entries := [("/ws/A/node_modules", Entry.dir)] }

/-- C4 (witness): the amended statement instantiated on the concrete
`A` declares `B@1.2.0` workspace. -/
theorem c4_eval_twice_link_once_witness :
    ((bootstrapPackage envEx [wsA, wsB] fsAB wsA).2.compatEvals).count
        (wsA.name, wsB.name) = 2 ∧
    ((linkedSiblings envEx [wsA, wsB] wsA).map Package.name).count wsB.name = 1 ∧
    (∀ n ∈ (linkedSiblings envEx [wsA, wsB] wsA).map Package.name,
      n ∉ (installFilteredDeps envEx [wsA, wsB] fsAB1 wsA).1) :=
  c4_eval_twice_link_once envEx [wsA, wsB] fsAB fsAB1 wsA wsB "1.2.0"
    (by decide) (by decide) (by decide) (by decide) (by decide) (by decide)
    rfl rfl

/-! ### C5 — manifest read failures -/

/-- C5 (counterexample): sibling `B` is declared compatibly by `A` (the
descriptor versions match) but `B`'s own `package.json` is unreadable at
link time.  `createLinkedDependencyFiles` `require`s it with no
`try`/`catch`, so the failure aborts `A`'s pipeline — refuting "a
malformed or missing manifest ... is never fatal". -/
theorem c5_counterexample :
    fs0.readManifest (pathJoin wsB.location "package.json") = none ∧
    (bootstrapPackage envEx [wsA, wsB] fs0 wsA).1 =
      .error (.requireFailed "/ws/B/package.json") :=
  ⟨rfl, rfl⟩

/-- C5 (amended): a read/parse failure of an already-installed dependency
copy's manifest is swallowed by `hasDependencyInstalled`'s `try`/`catch`
and treated as "not installed"; but a failure reading the manifest of a
sibling package being linked is not caught: `createLinkedDependencyFiles`
fails and the package's pipeline aborts with that failure. -/
theorem c5_manifest_read_failure (env : Env) (fs : FS) (pkg : Package)
    (d src dest name : String)
    (hinst : fs.readManifest
      (pathJoin (pathJoin pkg.nodeModulesLocation d) "package.json") = none)
    (hsib : fs.readManifest (pathJoin src "package.json") = none) :
    (hasDependencyInstalled env fs pkg d).1 = false ∧
    createLinkedDependencyFiles env fs src dest name =
      .error (.requireFailed (pathJoin src "package.json")) := by
  constructor
  · simp [hasDependencyInstalled, hinst]
  · simp [createLinkedDependencyFiles, hsib]

/-- C5 (witness): the amended statement instantiated on the empty
filesystem. -/
theorem c5_manifest_read_failure_witness :
    (hasDependencyInstalled envEx fs0 wsA "X").1 = false ∧
    createLinkedDependencyFiles envEx fs0 "/ws/B" "/ws/A/node_modules/B" "B" =
      .error (.requireFailed (pathJoin "/ws/B" "package.json")) :=
  c5_manifest_read_failure envEx fs0 wsA "X" "/ws/B" "/ws/A/node_modules/B" "B"
    rfl rfl

/-! ### Lookup lemmas for written files -/

theorem lookup_setEntry_self (fs : FS) (p : String) (e : Entry) :
    (fs.setEntry p e).lookup p = some e := by
  simp [FS.setEntry, FS.lookup, List.find?_cons_of_pos]

theorem find?_filter_ne (l : List (String × Entry)) (p q : String) (h : q ≠ p) :
    (l.filter (fun kv => kv.1 ≠ p)).find? (fun kv => kv.1 = q) =
      l.find? (fun kv => kv.1 = q) := by
  induction l with
  | nil => rfl
  | cons kv rest ih =>
    by_cases hp : kv.1 = p
    · have hq : ¬(kv.1 = q) := fun he => h (he ▸ hp)
      rw [List.filter_cons_of_neg (by simp [hp]),
        List.find?_cons_of_neg _ (by simp [hq]), ih]
    · by_cases hq : kv.1 = q
      · rw [List.filter_cons_of_pos (by simp [hp]),
          List.find?_cons_of_pos _ (by simp [hq]),
          List.find?_cons_of_pos _ (by simp [hq])]
      · rw [List.filter_cons_of_pos (by simp [hp]),
          List.find?_cons_of_neg _ (by simp [hq]),
          List.find?_cons_of_neg _ (by simp [hq]), ih]

theorem lookup_setEntry_ne (fs : FS) (p q : String) (e : Entry) (h : q ≠ p) :
    (fs.setEntry p e).lookup q = fs.lookup q := by
  unfold FS.setEntry FS.lookup
  rw [List.find?_cons_of_neg _ (by simp; exact fun he => h he.symm),
    find?_filter_ne fs.entries p q h]

theorem writeFile_ok_lookup (fs fs' : FS) (p c : String)
    (h : fs.writeFile p c = .ok fs') : fs'.lookup p = some (.file c) := by
  unfold FS.writeFile at h
  by_cases hb : fs.isBad p
  · simp [hb] at h
  · simp only [hb, Bool.false_eq_true, if_false, Except.ok.injEq] at h
    rw [← h]
    exact lookup_setEntry_self fs p (.file c)

theorem bind_writeFile_ok_lookup (e : Except FsError FS) (p c : String) (fs' : FS)
    (h : (e >>= fun fs1 => fs1.writeFile p c) = .ok fs') :
    fs'.lookup p = some (.file c) := by
  cases e with
  | error err => simp [Bind.bind, Except.bind] at h
  | ok fs1 =>
    simp only [Bind.bind, Except.bind] at h
    exact writeFile_ok_lookup fs1 fs' p c h

/-! ### C2 — the generated minimal manifest -/

/-- C2 (counterexample): the checked-in compiled variant of the class
writes a generated manifest with a third field `main` copied from the
sibling's manifest, so the manifest does not contain *only* `name` and
`version` as claimed; the concrete run shows the written content. -/
theorem c2_counterexample :
    (createLinkedDependencyFilesCompiled envEx fsAB "/ws/B"
        "/ws/A/node_modules/B" "B").map
      (fun fsc => fsc.lookup "/ws/A/node_modules/B/package.json") =
      .ok (some (.file (packageJsonFileContentsCompiled "B" "1.2.0" "index.js"))) ∧
    packageJsonFileContentsCompiled "B" "1.2.0" "index.js" ≠
      packageJsonFileContents "B" "1.2.0" ∧
    packageJsonFileContentsCompiled "B" "1.2.0" "index.js" =
      jsonStringifyObj [("name", "B"), ("version", "1.2.0"), ("main", "index.js")] := by
  refine ⟨rfl, ?_, rfl⟩
  decide

/-- C2 (amended): the generated manifest written at `P`'s dependency
directory for a linked sibling `S` is, in the ES-module source, the
serialization of exactly the fields `name` and `version` — the compiled
variant additionally copies `main` — with the version copied verbatim
from `S`'s own manifest at link time. -/
theorem c2_generated_manifest (env : Env) (fs fs' fsc : FS)
    (src dest name : String) (m : Manifest)
    (hm : fs.readManifest (pathJoin src "package.json") = some m)
    (hok : createLinkedDependencyFiles env fs src dest name = .ok fs')
    (hokc : createLinkedDependencyFilesCompiled env fs src dest name = .ok fsc) :
    fs'.lookup (pathJoin dest "package.json") =
      some (.file (jsonStringifyObj [("name", name), ("version", m.version)])) ∧
    fsc.lookup (pathJoin dest "package.json") =
      some (.file (jsonStringifyObj
        [("name", name), ("version", m.version), ("main", m.main)])) := by
  constructor
  · have hok' : (linkMatchedFiles env fs src dest (matchedFiles env src m) >>=
        fun fs1 => fs1.writeFile (pathJoin dest "package.json")
          (packageJsonFileContents name m.version)) = .ok fs' := by
      rw [← hok]
      simp only [createLinkedDependencyFiles, hm]
    exact bind_writeFile_ok_lookup _ _ _ _ hok'
  · have hokc' : (linkMatchedFiles env fs src dest (matchedFiles env src m) >>=
        fun fs1 => fs1.writeFile (pathJoin dest "package.json")
          (packageJsonFileContentsCompiled name m.version m.main)) = .ok fsc := by
      rw [← hokc]
      simp only [createLinkedDependencyFilesCompiled, hm]
    exact bind_writeFile_ok_lookup _ _ _ _ hokc'

/-- Environment whose glob oracle matches nothing (a sibling exposing no
files). -/
def envNoFiles : Env := { envEx with globMatch := fun _ _ => [] }

/-- The manifest of `B` in the concrete scenario. -/
def mB : Manifest := { version := "1.2.0", main := "index.js", lernaFiles := none }

/-- Output state of the source-variant link of `B` under `envNoFiles`. -/
def fsOutSrc : FS :=
  fsAB.setEntry "/ws/A/node_modules/B/package.json"
    (Entry.file (packageJsonFileContents "B" "1.2.0"))

/-- Output state of the compiled-variant link of `B` under `envNoFiles`. -/
def fsOutCompiled : FS :=
  fsAB.setEntry "/ws/A/node_modules/B/package.json"
    (Entry.file (packageJsonFileContentsCompiled "B" "1.2.0" "index.js"))

/-- C2 (witness): the amended statement instantiated on the concrete
link of `B` into `A`'s dependency directory. -/
theorem c2_generated_manifest_witness :
    fsOutSrc.lookup (pathJoin "/ws/A/node_modules/B" "package.json") =
      some (.file (jsonStringifyObj [("name", "B"), ("version", mB.version)])) ∧
    fsOutCompiled.lookup (pathJoin "/ws/A/node_modules/B" "package.json") =
      some (.file (jsonStringifyObj
        [("name", "B"), ("version", mB.version), ("main", mB.main)])) :=
  c2_generated_manifest envNoFiles fsAB fsOutSrc fsOutCompiled "/ws/B"
    "/ws/A/node_modules/B" "B" mB rfl rfl rfl

/-! ### Parsing a proxy file's re-export target (specification side) -/

/-- A character needing no escaping inside a JSON string literal. -/
def plainChar (c : Char) : Bool :=
  decide (c ≠ '"') && decide (c ≠ '\\') && decide (32 ≤ c.toNat)

theorem jsonEscapeChar_plain (c : Char) (h : plainChar c = true) :
    jsonEscapeChar c = [c] := by
  simp only [plainChar, Bool.and_eq_true, decide_eq_true_eq] at h
  obtain ⟨⟨h1, h2⟩, h3⟩ := h
  unfold jsonEscapeChar
  rw [if_neg h1, if_neg h2,
    if_neg (fun hc => absurd h3 (by subst hc; decide)),
    if_neg (fun hc => absurd h3 (by subst hc; decide)),
    if_neg (fun hc => absurd h3 (by subst hc; decide)),
    if_neg (fun hc => absurd h3 (by subst hc; decide)),
    if_neg (fun hc => absurd h3 (by subst hc; decide)),
    if_neg (by omega)]

theorem flatten_escape_plain (l : List Char) (h : ∀ c ∈ l, plainChar c = true) :
    (l.map jsonEscapeChar).flatten = l := by
  induction l with
  | nil => rfl
  | cons c rest ih =>
    simp [jsonEscapeChar_plain c (h c (List.mem_cons_self c rest)),
      ih (fun c hc => h c (List.mem_cons_of_mem _ hc))]

/-- Strip an expected leading character sequence. -/
def stripHead : List Char → List Char → Option (List Char)
  | [], cs => some cs
  | _ :: _, [] => none
  | h :: t, c :: cs => if c = h then stripHead t cs else none

theorem stripHead_append (h rest : List Char) :
    stripHead h (h ++ rest) = some rest := by
  induction h with
  | nil => rfl
  | cons c t ih => simp [stripHead, ih]

/-- Split at the first `"`, returning the part before it and the part
after it. -/
def takeUntilQuote : List Char → Option (List Char × List Char)
  | [] => none
  | c :: rest =>
    if c = '"' then some ([], rest)
    else
      match takeUntilQuote rest with
      | none => none
      | some p => some (c :: p.1, p.2)

theorem takeUntilQuote_append (p q : List Char) (hp : ∀ c ∈ p, c ≠ '"') :
    takeUntilQuote (p ++ '"' :: q) = some (p, q) := by
  induction p with
  | nil => simp [takeUntilQuote]
  | cons c t ih =>
    have hc : c ≠ '"' := hp c (List.mem_cons_self c t)
    simp [takeUntilQuote, hc, ih (fun c hc => hp c (List.mem_cons_of_mem _ hc))]

/-- The opening text of a generated proxy file, up to and including the
quote that starts the `require` path. -/
def reexportHeadChars : List Char := "module.exports = require(".data ++ ['"']

/-- Recover the `require`d path from a re-export statement, if the text is
exactly one such statement. -/
def requireTargetChars (cs : List Char) : Option (List Char) :=
  match stripHead reexportHeadChars cs with
  | none => none
  | some rest =>
    match takeUntilQuote rest with
    | none => none
    | some p => if p.2 = [')', ';'] then some p.1 else none

/-- String-level wrapper of `requireTargetChars`. -/
def requireTarget (s : String) : Option String :=
  (requireTargetChars s.data).map String.mk

theorem requireTarget_reexport (target : String)
    (h : ∀ c ∈ target.data, plainChar c = true) :
    requireTarget (reexportStatement target) = some target := by
  have hq : ∀ c ∈ target.data, c ≠ '"' := by
    intro c hc he
    have := h c hc
    rw [he] at this
    exact absurd this (by decide)
  have hdata : (reexportStatement target).data =
      reexportHeadChars ++ (target.data ++ '"' :: [')', ';']) := by
    simp only [reexportStatement, jsonStringifyString, String.data_append,
      reexportHeadChars]
    rw [flatten_escape_plain target.data h]
    simp
  unfold requireTarget
  rw [hdata]
  simp only [requireTargetChars, stripHead_append,
    takeUntilQuote_append target.data [')', ';'] hq]
  simp

/-! ### Lookups through the per-file step -/

theorem mkdirp_ok_manifests (fs fs1 : FS) (p : String)
    (h : fs.mkdirp p = .ok fs1) : fs1.manifests = fs.manifests := by
  unfold FS.mkdirp at h
  by_cases hb : fs.isBad p
  · simp [hb] at h
  · simp only [hb, Bool.false_eq_true, if_false] at h
    cases hl : fs.lookup p with
    | none => rw [hl] at h; simp only [Except.ok.injEq] at h; rw [← h]; rfl
    | some e =>
      cases e with
      | dir => rw [hl] at h; simp only [Except.ok.injEq] at h; rw [← h]
      | file c => rw [hl] at h; simp at h
      | symlinkEntry t => rw [hl] at h; simp at h

theorem mkdirp_ok_lookup_ne (fs fs1 : FS) (p q : String)
    (h : fs.mkdirp p = .ok fs1) (hne : q ≠ p) :
    fs1.lookup q = fs.lookup q := by
  unfold FS.mkdirp at h
  by_cases hb : fs.isBad p
  · simp [hb] at h
  · simp only [hb, Bool.false_eq_true, if_false] at h
    cases hl : fs.lookup p with
    | none =>
      rw [hl] at h
      simp only [Except.ok.injEq] at h
      rw [← h]
      exact lookup_setEntry_ne fs p q .dir hne
    | some e =>
      cases e with
      | dir => rw [hl] at h; simp only [Except.ok.injEq] at h; rw [← h]
      | file c => rw [hl] at h; simp at h
      | symlinkEntry t => rw [hl] at h; simp at h

theorem mkdirp_ok_badPaths (fs fs1 : FS) (p : String)
    (h : fs.mkdirp p = .ok fs1) : fs1.badPaths = fs.badPaths := by
  unfold FS.mkdirp at h
  by_cases hb : fs.isBad p
  · simp [hb] at h
  · simp only [hb, Bool.false_eq_true, if_false] at h
    cases hl : fs.lookup p with
    | none => rw [hl] at h; simp only [Except.ok.injEq] at h; rw [← h]; rfl
    | some e =>
      cases e with
      | dir => rw [hl] at h; simp only [Except.ok.injEq] at h; rw [← h]
      | file c => rw [hl] at h; simp at h
      | symlinkEntry t => rw [hl] at h; simp at h

theorem linkOneFile_js (env : Env) (fs fs1 : FS) (src dest file : String)
    (hext : extname file = ".js")
    (hok : linkOneFile env fs src dest file = .ok fs1) :
    fs1.lookup (pathJoin dest file) =
      some (.file (env.headerStr ++ reexportStatement (pathJoin src file))) := by
  simp only [linkOneFile] at hok
  cases hmk : fs.mkdirp (dirname (pathJoin dest file)) with
  | error e => rw [hmk] at hok; simp [Bind.bind, Except.bind] at hok
  | ok fsd =>
    rw [hmk] at hok
    simp only [Bind.bind, Except.bind, hext, if_true] at hok
    exact writeFile_ok_lookup fsd fs1 _ _ hok

/-! ### C7 — proxy file contents -/

/-- C7 (confirmed): for a matched file with the `.js` extension, the
per-file step writes a generated proxy whose content is the configured
header followed by one re-export statement, and that statement, parsed
back, yields exactly the absolute path of the original file under the
sibling's location (provided the path needs no JSON escaping). -/
theorem c7_proxy_reexport (env : Env) (fs fs1 : FS) (src dest file : String)
    (hext : extname file = ".js")
    (hok : linkOneFile env fs src dest file = .ok fs1)
    (hplain : ∀ c ∈ (pathJoin src file).data, plainChar c = true) :
    fs1.lookup (pathJoin dest file) =
      some (.file (env.headerStr ++ reexportStatement (pathJoin src file))) ∧
    requireTarget (reexportStatement (pathJoin src file)) =
      some (pathJoin src file) :=
  ⟨linkOneFile_js env fs fs1 src dest file hext hok,
   requireTarget_reexport _ hplain⟩

/-- Output state of the concrete proxy write of `B`'s `index.js`. -/
def fsProxyJs : FS :=
  (fs0.setEntry "/ws/A/node_modules/B" .dir).setEntry
    "/ws/A/node_modules/B/index.js"
    (.file ("/* gen */" ++ reexportStatement "/ws/B/index.js"))

/-- C7 (witness): the proxy written for `B`'s `index.js`. -/
theorem c7_proxy_reexport_witness :
    fsProxyJs.lookup (pathJoin "/ws/A/node_modules/B" "index.js") =
      some (.file (envEx.headerStr ++
        reexportStatement (pathJoin "/ws/B" "index.js"))) ∧
    requireTarget (reexportStatement (pathJoin "/ws/B" "index.js")) =
      some (pathJoin "/ws/B" "index.js") :=
  c7_proxy_reexport envEx fs0 fsProxyJs "/ws/B" "/ws/A/node_modules/B"
    "index.js" (by decide) rfl (by decide)

/-! ### C10 — dispatch on the exact extension -/

/-- C10 (confirmed): the choice between generated proxy and symbolic link
is decided solely by whether the file's extension is exactly `.js`: a
`.js` file becomes a proxy, any other file (`.json`, `.jsx`, extensionless
names, a non-`.js` main entry) becomes a symbolic link to the original
file, assuming a clean destination path. -/
theorem c10_dispatch_solely_extension (env : Env) (fs fs1 : FS)
    (src dest file : String)
    (hok : linkOneFile env fs src dest file = .ok fs1)
    (hclean : fs.lookup (pathJoin dest file) = none)
    (hdir : pathJoin dest file ≠ dirname (pathJoin dest file)) :
    (extname file = ".js" →
      fs1.lookup (pathJoin dest file) =
        some (.file (env.headerStr ++ reexportStatement (pathJoin src file)))) ∧
    (extname file ≠ ".js" →
      fs1.lookup (pathJoin dest file) = some (.symlinkEntry (pathJoin src file))) := by
  constructor
  · intro hext
    exact linkOneFile_js env fs fs1 src dest file hext hok
  · intro hext
    simp only [linkOneFile] at hok
    cases hmk : fs.mkdirp (dirname (pathJoin dest file)) with
    | error e => rw [hmk] at hok; simp [Bind.bind, Except.bind] at hok
    | ok fsd =>
      rw [hmk] at hok
      simp only [Bind.bind, Except.bind] at hok
      rw [if_neg hext] at hok
      have hlk : fsd.lookup (pathJoin dest file) = none :=
        (mkdirp_ok_lookup_ne fs fsd _ _ hmk hdir).trans hclean
      unfold FS.symlinkTo at hok
      by_cases hb : fsd.isBad (pathJoin dest file)
      · simp [hb] at hok
      · simp only [hb, Bool.false_eq_true, if_false] at hok
        rw [hlk] at hok
        simp only [Except.ok.injEq] at hok
        rw [← hok]
        exact lookup_setEntry_self fsd _ _

/-- Expected filesystem after symlinking one non-source file of `B`. -/
def fsSymOut (f : String) : FS :=
  (fs0.setEntry (dirname (pathJoin "/ws/A/node_modules/B" f)) .dir).setEntry
    (pathJoin "/ws/A/node_modules/B" f)
    (.symlinkEntry (pathJoin "/ws/B" f))

/-- C10 (witness): a non-`.js` main entry, a `.json` file, a `.jsx` file
and an extensionless file all become symbolic links, while `index.js`
becomes a proxy. -/
theorem c10_dispatch_solely_extension_witness :
    (fsSymOut "main.node").lookup (pathJoin "/ws/A/node_modules/B" "main.node") =
      some (.symlinkEntry (pathJoin "/ws/B" "main.node")) ∧
    (fsSymOut "data.json").lookup (pathJoin "/ws/A/node_modules/B" "data.json") =
      some (.symlinkEntry (pathJoin "/ws/B" "data.json")) ∧
    (fsSymOut "view.jsx").lookup (pathJoin "/ws/A/node_modules/B" "view.jsx") =
      some (.symlinkEntry (pathJoin "/ws/B" "view.jsx")) ∧
    (fsSymOut "LICENSE").lookup (pathJoin "/ws/A/node_modules/B" "LICENSE") =
      some (.symlinkEntry (pathJoin "/ws/B" "LICENSE")) ∧
    fsProxyJs.lookup (pathJoin "/ws/A/node_modules/B" "index.js") =
      some (.file (envEx.headerStr ++
        reexportStatement (pathJoin "/ws/B" "index.js"))) :=
  ⟨(c10_dispatch_solely_extension envEx fs0 (fsSymOut "main.node") "/ws/B"
      "/ws/A/node_modules/B" "main.node" rfl rfl (by decide)).2 (by decide),
   (c10_dispatch_solely_extension envEx fs0 (fsSymOut "data.json") "/ws/B"
      "/ws/A/node_modules/B" "data.json" rfl rfl (by decide)).2 (by decide),
   (c10_dispatch_solely_extension envEx fs0 (fsSymOut "view.jsx") "/ws/B"
      "/ws/A/node_modules/B" "view.jsx" rfl rfl (by decide)).2 (by decide),
   (c10_dispatch_solely_extension envEx fs0 (fsSymOut "LICENSE") "/ws/B"
      "/ws/A/node_modules/B" "LICENSE" rfl rfl (by decide)).2 (by decide),
   (c10_dispatch_solely_extension envEx fs0 fsProxyJs "/ws/B"
      "/ws/A/node_modules/B" "index.js" rfl rfl (by decide)).1 (by decide)⟩

/-! ### Error propagation through the linking chain (C8) -/

theorem linkMatchedFiles_append (env : Env) (src dest : String) :
    ∀ (l1 l2 : List String) (fs : FS),
      linkMatchedFiles env fs src dest (l1 ++ l2) =
        (linkMatchedFiles env fs src dest l1 >>= fun fs1 =>
          linkMatchedFiles env fs1 src dest l2) := by
  intro l1
  induction l1 with
  | nil => intro l2 fs; simp [linkMatchedFiles, Bind.bind, Except.bind]
  | cons f t ih =>
    intro l2 fs
    simp only [List.cons_append, linkMatchedFiles]
    cases h : linkOneFile env fs src dest f with
    | error e => simp [Bind.bind, Except.bind, h]
    | ok fs1 =>
      simp only [Bind.bind, Except.bind, h]
      have hih := ih l2 fs1
      simp only [Bind.bind, Except.bind] at hih
      exact hih

theorem linkAll_append (env : Env) (pkg : Package) :
    ∀ (l1 l2 : List Package) (fs : FS),
      linkAll env fs pkg (l1 ++ l2) =
        (linkAll env fs pkg l1 >>= fun fs1 => linkAll env fs1 pkg l2) := by
  intro l1
  induction l1 with
  | nil => intro l2 fs; simp [linkAll, Bind.bind, Except.bind]
  | cons D t ih =>
    intro l2 fs
    simp only [List.cons_append, linkAll]
    cases h : createLinkedDependency env fs D.location
        (pathJoin pkg.nodeModulesLocation D.name) D.name with
    | error e => simp [Bind.bind, Except.bind, h]
    | ok fs1 => simp [Bind.bind, Except.bind, h, ih]

/-! ### C8 — the EEXIST swallow and everything else aborting the pair -/

/-- C8 (confirmed): (i) when the symbolic-link step of a non-source file
rejects because the target already exists, the per-file operation succeeds
silently with the filesystem unchanged; (ii) a failing file-level
operation fails the whole pair's `linkMatchedFiles`; and (iii) a pair
whose file phase fails aborts the package pipeline with exactly that
error. -/
theorem c8_eexist_swallowed_else_aborts :
    (∀ (env : Env) (fs fsd : FS) (src dest file : String),
      extname file ≠ ".js" →
      fs.mkdirp (dirname (pathJoin dest file)) = .ok fsd →
      (fsd.lookup (pathJoin dest file)).isSome = true →
      fsd.isBad (pathJoin dest file) = false →
      linkOneFile env fs src dest file = .ok fsd)
  ∧ (∀ (env : Env) (fs fsf : FS) (src dest f : String)
        (fpre fpost : List String) (e : FsError),
      linkMatchedFiles env fs src dest fpre = .ok fsf →
      linkOneFile env fsf src dest f = .error e →
      linkMatchedFiles env fs src dest (fpre ++ f :: fpost) = .error e)
  ∧ (∀ (env : Env) (packages : List Package) (fs fs1 fsp fs2 fs3 : FS)
        (pkg D : Package) (pre post : List Package) (m : Manifest) (e : FsError),
      fs.mkdirp pkg.nodeModulesLocation = .ok fs1 →
      (installExternalPackages env packages fs1 pkg).1 = .ok () →
      linkedSiblings env packages pkg = pre ++ D :: post →
      linkAll env fs1 pkg pre = .ok fsp →
      fsp.rimraf (pathJoin pkg.nodeModulesLocation D.name) = .ok fs2 →
      fs2.mkdirp (pathJoin pkg.nodeModulesLocation D.name) = .ok fs3 →
      fs3.readManifest (pathJoin D.location "package.json") = some m →
      linkMatchedFiles env fs3 D.location
        (pathJoin pkg.nodeModulesLocation D.name)
        (matchedFiles env D.location m) = .error e →
      (bootstrapPackage env packages fs pkg).1 = .error e) := by
  refine ⟨?_, ?_, ?_⟩
  · intro env fs fsd src dest file hext hmk hexists hnb
    simp only [linkOneFile, hmk, Bind.bind, Except.bind]
    rw [if_neg hext]
    unfold FS.symlinkTo
    rw [hnb]
    cases hl : fsd.lookup (pathJoin dest file) with
    | none => rw [hl] at hexists; simp at hexists
    | some en => simp
  · intro env fs fsf src dest f fpre fpost e hpre herr
    rw [linkMatchedFiles_append]
    simp only [hpre, Bind.bind, Except.bind, linkMatchedFiles, herr]
  · intro env packages fs fs1 fsp fs2 fs3 pkg D pre post m e hmk hinst hsib
      hpre hrim hmkd hman hfiles
    have hpair : createLinkedDependency env fsp D.location
        (pathJoin pkg.nodeModulesLocation D.name) D.name = .error e := by
      simp only [createLinkedDependency, hrim, hmkd, Bind.bind, Except.bind,
        createLinkedDependencyFiles, hman, hfiles]
    have hlink : linkAll env fs1 pkg (linkedSiblings env packages pkg) = .error e := by
      rw [hsib, linkAll_append]
      simp only [hpre, Bind.bind, Except.bind, linkAll, hpair]
    unfold bootstrapPackage
    rw [hmk]
    simp only [hinst, linkDependenciesForPackage, hlink]

/-- A filesystem already holding a link at the destination path. -/
def fsPre : FS :=
  { entries := [("/ws/A/node_modules/B/main.node",
      Entry.symlinkEntry "/ws/B/main.node")]
    manifests := [], badPaths := [] }

/-- The same filesystem after the parent-directory `mkdirp`. -/
def fsPreD : FS := fsPre.setEntry "/ws/A/node_modules/B" .dir

/-- A filesystem where creating the link itself fails with an I/O error. -/
def fsBadLink : FS :=
  { entries := [], manifests := []
    badPaths := ["/ws/A/node_modules/B/main.node"] }

/-- Manifest of `B` whose main entry is a non-source file. -/
def mBNode : Manifest :=
  { version := "1.2.0", main := "main.node", lernaFiles := none }

/-- Initial filesystem of the C8 pipeline scenario: `B`'s manifest is
readable, but the destination of its `main.node` link is faulty. -/
def fsC8 : FS :=
  { entries := []
    manifests := [("/ws/B/package.json", mBNode)]
    badPaths := ["/ws/A/node_modules/B/main.node"] }

/-- After `mkdirp` of `A`'s dependency directory. -/
def fsC8a : FS := fsC8.setEntry "/ws/A/node_modules" .dir

/-- After the pair's reset and recreate of the link target. -/
def fsC8b : FS := fsC8a.setEntry "/ws/A/node_modules/B" .dir

/-- C8 (witness): the three parts instantiated — an existing link is
swallowed; an I/O failure fails the pair's file phase; and the same
failure surfaces as the package pipeline's result. -/
theorem c8_eexist_swallowed_else_aborts_witness :
    linkOneFile envEx fsPre "/ws/B" "/ws/A/node_modules/B" "main.node" =
      .ok fsPreD ∧
    linkMatchedFiles envEx fsBadLink "/ws/B" "/ws/A/node_modules/B"
      ["main.node"] = .error (.ioErr "/ws/A/node_modules/B/main.node") ∧
    (bootstrapPackage envEx [wsA, wsB] fsC8 wsA).1 =
      .error (.ioErr "/ws/A/node_modules/B/main.node") :=
  ⟨c8_eexist_swallowed_else_aborts.1 envEx fsPre fsPreD "/ws/B"
      "/ws/A/node_modules/B" "main.node" (by decide) rfl (by decide) (by decide),
   c8_eexist_swallowed_else_aborts.2.1 envEx fsBadLink fsBadLink "/ws/B"
      "/ws/A/node_modules/B" "main.node" [] []
      (.ioErr "/ws/A/node_modules/B/main.node") rfl rfl,
   c8_eexist_swallowed_else_aborts.2.2 envEx [wsA, wsB] fsC8 fsC8a fsC8a
      fsC8a fsC8b wsA wsB [] [] mBNode
      (.ioErr "/ws/A/node_modules/B/main.node")
      rfl rfl (by decide) rfl rfl rfl rfl rfl⟩

/-! ### C9 — the orchestrator's aggregate result -/

/-- Every per-package pipeline, run in the pool's processing order,
succeeds. -/
def pipelinesOk (env : Env) (packages : List Package) : FS → List Package → Bool
  | _, [] => true
  | fs, pkg :: rest =>
    match (bootstrapPackage env packages fs pkg).1 with
    | .error _ => false
    | .ok fs1 => pipelinesOk env packages fs1 rest

theorem runPipelines_isOk (env : Env) (packages : List Package) :
    ∀ (l : List Package) (fs : FS),
      (∃ fs', (runPipelines env packages fs l).1 = .ok fs') ↔
        pipelinesOk env packages fs l = true := by
  intro l
  induction l with
  | nil => intro fs; simp [runPipelines, pipelinesOk]
  | cons p rest ih =>
    intro fs
    cases h : (bootstrapPackage env packages fs p).1 with
    | error e => simp [runPipelines, pipelinesOk, h]
    | ok fs1 => simp [runPipelines, pipelinesOk, h, ih]

theorem runPipelines_first_error (env : Env) (packages : List Package) :
    ∀ (pre : List Package) (fs fsp : FS) (p : Package) (post : List Package)
      (e : FsError),
      (runPipelines env packages fs pre).1 = .ok fsp →
      (bootstrapPackage env packages fsp p).1 = .error e →
      runPipelines env packages fs (pre ++ p :: post) =
        (.error e, (runPipelines env packages fs pre).2 ++ [p.name]) := by
  intro pre
  induction pre with
  | nil =>
    intro fs fsp p post e hpre herr
    simp only [runPipelines, Except.ok.injEq] at hpre
    subst hpre
    simp [runPipelines, herr]
  | cons q t ih =>
    intro fs fsp p post e hpre herr
    cases hq : (bootstrapPackage env packages fs q).1 with
    | error e' =>
      rw [show runPipelines env packages fs (q :: t) =
          (.error e', [q.name]) by simp [runPipelines, hq]] at hpre
      simp at hpre
    | ok fs1 =>
      have hpre' : (runPipelines env packages fs1 t).1 = .ok fsp := by
        have : runPipelines env packages fs (q :: t) =
            ((runPipelines env packages fs1 t).1,
              q.name :: (runPipelines env packages fs1 t).2) := by
          simp [runPipelines, hq]
        rw [this] at hpre
        exact hpre
      have hrec := ih fs1 fsp p post e hpre' herr
      simp [runPipelines, hq, hrec]

/-- The faulty filesystem of the C9 scenario. -/
def fsBadA : FS :=
  { entries := [], manifests := [("/ws/B/package.json", mB)]
    badPaths := ["/ws/A/node_modules"] }

/-- C9 (counterexample): two-package workspace where `A`'s pipeline fails
at its first step (faulty dependency directory).  The orchestrator
reports the failure, and `B`'s pipeline is never run — its completion
tick never fires — refuting "a failure of one package's pipeline does not
stop ... other packages' pipelines" (the pool stops launching tasks once
a failure is observed). -/
theorem c9_counterexample :
    (linkDependencies envEx [wsA, wsB] fsBadA).1 =
      .error (.ioErr "/ws/A/node_modules") ∧
    (linkDependencies envEx [wsA, wsB] fsBadA).2 = ["A"] ∧
    "B" ∉ (linkDependencies envEx [wsA, wsB] fsBadA).2 :=
  ⟨rfl, rfl, by decide⟩

/-- C9 (amended): the orchestrator's result is a success iff every
pipeline it processes succeeds; otherwise it returns the first observed
failure, pipelines already completed before the failure are unaffected,
and pipelines not yet started when the failure is observed are not run
(their completion ticks never fire). -/
theorem c9_first_failure (env : Env) (packages : List Package) (fs fsp : FS)
    (pre post : List Package) (p : Package) (e : FsError) :
    (execute env packages fs = .ok true ↔
      pipelinesOk env packages fs (env.filterPackages packages) = true)
  ∧ (env.filterPackages packages = pre ++ p :: post →
      (runPipelines env packages fs pre).1 = .ok fsp →
      (bootstrapPackage env packages fsp p).1 = .error e →
      (linkDependencies env packages fs).1 = .error e ∧
      (linkDependencies env packages fs).2 =
        (runPipelines env packages fs pre).2 ++ [p.name]) := by
  constructor
  · unfold execute linkDependencies
    cases h : (runPipelines env packages fs (env.filterPackages packages)).1 with
    | error e' =>
      simp only [h]
      constructor
      · intro hc; exact absurd hc (by simp)
      · intro hok
        rcases (runPipelines_isOk env packages (env.filterPackages packages) fs).2
          hok with ⟨fs', hfs'⟩
        rw [h] at hfs'
        exact absurd hfs' (by simp)
    | ok fs' =>
      simp only [h]
      constructor
      · intro _
        exact (runPipelines_isOk env packages (env.filterPackages packages) fs).1
          ⟨_, h⟩
      · intro _; trivial
  · intro hfilt hpre herr
    unfold linkDependencies
    rw [hfilt, runPipelines_first_error env packages pre fs fsp p post e hpre herr]
    exact ⟨rfl, rfl⟩

/-- C9 (witness): the amended statement instantiated — the success
characterization on the healthy scenario, and the first-failure behaviour
on the faulty one. -/
theorem c9_first_failure_witness :
    (execute envEx [wsA, wsB] fsAB = .ok true ↔
      pipelinesOk envEx [wsA, wsB] fsAB
        (envEx.filterPackages [wsA, wsB]) = true) ∧
    ((linkDependencies envEx [wsA, wsB] fsBadA).1 =
        .error (.ioErr "/ws/A/node_modules") ∧
      (linkDependencies envEx [wsA, wsB] fsBadA).2 =
        (runPipelines envEx [wsA, wsB] fsBadA []).2 ++ [wsA.name]) :=
  ⟨(c9_first_failure envEx [wsA, wsB] fsAB fsAB [] [] wsA
      (.ioErr "/ws/A/node_modules")).1,
   (c9_first_failure envEx [wsA, wsB] fsBadA fsBadA [] [wsB] wsA
      (.ioErr "/ws/A/node_modules")).2 rfl rfl rfl⟩

end Bootstrap
